import Mathlib

/-!
Verification development for the niiRender volumetric renderer
(`src/main/code.js`).  The JavaScript source is shallowly embedded:
JS numbers are modelled by `JsNum` (a rational value or NaN), strings by
`List Char`, and each source function by a computable Lean definition that
follows the source line by line.  Theorems at the end settle the spec
claims about ingestion, uniform packing, the camera controller, the
ray-marching kernel and the camera matrix derivation.
-/

namespace NiiRender

/-- A JavaScript number as produced by the `Number` builtin: either an
exact rational value (floating-point rounding is not modelled, since every
claim only moves values around unchanged) or NaN. -/
inductive JsNum where
  | nan : JsNum
  | val (q : ℚ) : JsNum
deriving DecidableEq, Repr

/-- JS strings are modelled as lists of characters. -/
abbrev Str := List Char

/-- `String.prototype.split(sep)` with a single-character separator:
keeps empty fragments, and the empty string yields `[[]]`, exactly as in
JavaScript (`"".split(' ') === [""]`). -/
def jsSplit (sep : Char) : Str → List Str
  | [] => [[]]
  | c :: rest =>
    if c = sep then [] :: jsSplit sep rest
    else
      match jsSplit sep rest with
      | t :: ts => (c :: t) :: ts
      | [] => [[c]]

/-- `String.prototype.trim()`: strip whitespace from both ends. -/
def jsTrim (s : Str) : Str :=
  ((s.dropWhile Char.isWhitespace).reverse.dropWhile Char.isWhitespace).reverse

/-- `line.startsWith('--')` (applied to the raw, untrimmed line, as in the
source). -/
def startsDashDash : Str → Bool
  | '-' :: '-' :: _ => true
  | _ => false

/-- Value of a digit string read in base 10 (computed over `ℕ` and cast
once, so that concrete parses evaluate inside the kernel). -/
def digitsVal (l : Str) : ℚ :=
  ((l.foldl (fun a c => a * 10 + (c.toNat - 48)) 0 : ℕ) : ℚ)

/-- Unsigned part of the JS `Number` builtin on the decimal fragment:
`digits`, `digits.digits`, `digits.` or `.digits`; anything else is NaN. -/
def parseUnsigned (s : Str) : JsNum :=
  let ip := s.takeWhile Char.isDigit
  let rest := s.dropWhile Char.isDigit
  match rest with
  | [] => if ip = [] then .nan else .val (digitsVal ip)
  | '.' :: fp =>
    if fp.all Char.isDigit && (!ip.isEmpty || !fp.isEmpty) then
      .val (digitsVal ip + digitsVal fp / (10 : ℚ) ^ fp.length)
    else .nan
  | _ => .nan

/-- The JS `Number` builtin (an external primitive of the runtime),
modelled on the fragment the volume files use: surrounding whitespace is
trimmed, the empty string is `0`, an optional sign followed by a decimal
literal is its value, and every other token (including literal forms the
repository's data never uses, such as hex or exponents) is NaN. -/
def jsNumber (tok : Str) : JsNum :=
  let t := jsTrim tok
  match t with
  | [] => .val 0
  | '-' :: rest =>
    match parseUnsigned rest with
    | .val q => .val (-q)
    | .nan => .nan
  | '+' :: rest => parseUnsigned rest
  | _ => parseUnsigned t

/-- `line.trim().split(' ').map(Number)`, the token pipeline used for the
`header` and `affine` sections. -/
def lineNums (l : Str) : List JsNum := (jsSplit ' ' (jsTrim l)).map jsNumber

/-- Section marker `'--header--'` (the value `section` is compared with). -/
def headerTag : Str := "--header--".data

/-- Section marker `'--affine--'`. -/
def affineTag : Str := "--affine--".data

/-- Section marker `'--voxel--'`. -/
def voxelTag : Str := "--voxel--".data

/-- Mutable state of the line loop in `parseVoxelTxt`
(`section`, `shape`, `affineValues`, `voxelLine`). -/
structure ParseState where
  sec : Option Str
  shape : List JsNum
  affineValues : List JsNum
  voxelLine : Str
deriving DecidableEq, Repr

/-- One iteration of the `for (const line of lines)` loop of
`parseVoxelTxt` (src/main/code.js lines 87-100). -/
def psStep (st : ParseState) (line : Str) : ParseState :=
  if startsDashDash line then { st with sec := some (jsTrim line) }
  else
    match st.sec with
    | some s =>
      if s = headerTag then { st with shape := st.shape ++ lineNums line }
      else if s = affineTag then
        { st with affineValues := st.affineValues ++ lineNums line }
      else if s = voxelTag then
        { st with voxelLine := st.voxelLine ++ jsTrim line ++ [' '] }
      else st
    | none => st

/-- The record `{ voxel, dims, affine }` returned by both ingestion
functions.  `voxel` and `affine` are `Float32Array`s (never holding
`undefined`, possibly holding NaN); `dims` is a plain 3-element JS array
whose entries may be `undefined` (`none`) when the header is short. -/
structure VolRecord where
  voxel : List JsNum
  dims : List (Option JsNum)
  affine : List JsNum
deriving DecidableEq, Repr

/-- The axis reorder `[shape[1], shape[2], shape[0]]` applied to the
parsed header/shape triple by both ingestion functions
(src/main/code.js lines 72 and 105). -/
def dimsReorder (shape : List JsNum) : List (Option JsNum) :=
  [shape[1]?, shape[2]?, shape[0]?]

/-- `parseVoxelTxt` (src/main/code.js lines 77-108), the Form-A ingestion
function, modelled from the point after the fetched text is in hand.  The
text is split on newlines, the line loop runs, and the final record is
assembled; there is no failure path, so the codomain is `VolRecord`
rather than an `Except`. -/
def parseVoxelTxt (text : String) : VolRecord :=
  let lines := jsSplit '\n' text.data
  let st := lines.foldl psStep ⟨none, [], [], []⟩
  { voxel := (jsSplit ' ' (jsTrim st.voxelLine)).map jsNumber
    dims := dimsReorder st.shape
    affine := st.affineValues }

/-- A Form-B document: the JSON fields `shape`, `affine` (4×4 nested
array) and `voxel_data` (3-deep nested array) that `loadVolumeJSON`
reads. -/
structure JsonVolume where
  shape : List JsNum
  affine : List (List JsNum)
  voxel_data : List (List (List JsNum))

/-- `loadVolumeJSON` (src/main/code.js lines 67-75), the Form-B ingestion
function, modelled from the point after the fetched JSON is in hand.
`json.voxel_data.flat(3)` flattens the 3-deep nesting; `json.affine.flat()`
flattens one level; `dims` applies the same axis reorder as Form A. -/
def loadVolumeJSON (j : JsonVolume) : VolRecord :=
  { voxel := (j.voxel_data.map List.flatten).flatten
    dims := dimsReorder j.shape
    affine := j.affine.flatten }

/-! ### GPU upload and the ingestion entry point -/

/-- JS multiplication of a possibly-undefined array entry by a constant,
as in `dims[0] * 4` (`undefined * 4` and `NaN * 4` are both NaN). -/
def jsMulOpt (x : Option JsNum) (c : ℚ) : JsNum :=
  match x with
  | some (.val q) => .val (q * c)
  | _ => .nan

/-- The `writeTexture` call issued by `main` (src/main/code.js lines
121-133): texture size `dims`, row pitch `dims[0] * 4` bytes and
`dims[1]` rows per image, with the voxel data as payload. -/
structure UploadCmd where
  size : List (Option JsNum)
  data : List JsNum
  bytesPerRow : JsNum
  rowsPerImage : Option JsNum
deriving DecidableEq, Repr

/-- The GPU upload `main` performs unconditionally when it runs
(src/main/code.js lines 110-133). -/
def mainUploadCmd (r : VolRecord) : UploadCmd :=
  { size := r.dims
    data := r.voxel
    bytesPerRow := jsMulOpt (r.dims[0]?.join) 4
    rowsPerImage := r.dims[1]?.join }

/-- The program entry point (src/main/code.js lines 247-249):
`parseVoxelTxt(url).then(({voxel, dims, affine}) => main(...))`.  The
promise chain has no rejection handler and the parser has no failure
path, so an upload command is always produced; `none` (no upload) is
unreachable in the code as written. -/
def ingestThenMain (text : String) : Option UploadCmd :=
  some (mainUploadCmd (parseVoxelTxt text))

/-- Determinant of a 4×4 matrix given as a row-major 16-entry array of JS
numbers; `none` when the array is short or holds NaN.  (This predicate is
part of the spec claim about singular affines; the source performs no
such computation at ingestion time.) -/
def det4 (m : List JsNum) : Option ℚ :=
  match m with
  | [.val a00, .val a01, .val a02, .val a03,
     .val a10, .val a11, .val a12, .val a13,
     .val a20, .val a21, .val a22, .val a23,
     .val a30, .val a31, .val a32, .val a33] =>
    some (a00 * (a11 * (a22 * a33 - a23 * a32)
                 - a12 * (a21 * a33 - a23 * a31)
                 + a13 * (a21 * a32 - a22 * a31))
        - a01 * (a10 * (a22 * a33 - a23 * a32)
                 - a12 * (a20 * a33 - a23 * a30)
                 + a13 * (a20 * a32 - a22 * a30))
        + a02 * (a10 * (a21 * a33 - a23 * a31)
                 - a11 * (a20 * a33 - a23 * a30)
                 + a13 * (a20 * a31 - a21 * a30))
        - a03 * (a10 * (a21 * a32 - a22 * a31)
                 - a11 * (a20 * a32 - a22 * a30)
                 + a12 * (a20 * a31 - a21 * a30)))
  | _ => none

/-! ### Per-frame uniform serialization -/

/-- `const uniformBufferSize = 64 + 64 + 32` (src/main/code.js line 136),
in bytes. -/
def uniformBufferSize : ℕ := 64 + 64 + 32

/-- `TypedArray.prototype.set(src, offset)` on a `Float32Array` viewed as
a list of 4-byte float slots. -/
def taSet (arr src : List ℚ) (off : ℕ) : List ℚ :=
  arr.take off ++ src ++ arr.drop (off + src.length)

/-- The per-frame uniform serialization performed by `render`
(src/main/code.js lines 213-218): a `Float32Array(uniformBufferSize / 4)`
of zeros, `set(invAffine, 0)`, `set(invViewProj, 16)`, `set(dims, 32)`,
`[35] = low`, `[36] = high`. -/
def writeFrameData (invAffine invViewProj dims : List ℚ) (low high : ℚ) :
    List ℚ :=
  ((taSet (taSet (taSet (List.replicate (uniformBufferSize / 4) 0)
      invAffine 0) invViewProj 16) dims 32).set 35 low).set 36 high

/-! ### The ray-marching kernel (WGSL `fsMain`, src/main/code.js lines
42-64), embedded over exact rationals -/

/-- A WGSL `vec3<f32>`. -/
structure Vec3 where
  x : ℚ
  y : ℚ
  z : ℚ
deriving DecidableEq, Repr

/-- A WGSL `vec4<f32>`. -/
structure Vec4 where
  x : ℚ
  y : ℚ
  z : ℚ
  w : ℚ
deriving DecidableEq, Repr

/-- A WGSL `mat4x4<f32>` as read from the uniform buffer: `m c r` is the
entry in column `c`, row `r` (column-major, matching the WGSL layout). -/
abbrev Mat4 := Fin 4 → Fin 4 → ℚ

/-- WGSL matrix-vector product `m * v`. -/
def mulVec (m : Mat4) (v : Vec4) : Vec4 :=
  { x := m 0 0 * v.x + m 1 0 * v.y + m 2 0 * v.z + m 3 0 * v.w
    y := m 0 1 * v.x + m 1 1 * v.y + m 2 1 * v.z + m 3 1 * v.w
    z := m 0 2 * v.x + m 1 2 * v.y + m 2 2 * v.z + m 3 2 * v.w
    w := m 0 3 * v.x + m 1 3 * v.y + m 2 3 * v.z + m 3 3 * v.w }

/-- The uniform record declared by the shader (`struct Uniforms`). -/
structure ShaderUniforms where
  invAffine : Mat4
  invViewProj : Mat4
  volumeDims : Vec3
  thresholdLow : ℚ
  thresholdHigh : ℚ

/-- WGSL `clamp` for scalars. -/
def clampQ (v lo hi : ℚ) : ℚ := max lo (min hi v)

/-- WGSL `smoothstep(low, high, x)`. -/
def smoothstepQ (low high x : ℚ) : ℚ :=
  let t := clampQ ((x - low) / (high - low)) 0 1
  t * t * (3 - 2 * t)

/-- WGSL `vec3u` conversion of a non-negative `f32` coordinate:
truncation toward zero (equal to the floor on the guarded, non-negative
path where the shader uses it). -/
def toTexel (q : ℚ) : ℕ := q.floor.toNat

/-- The voxel-normalized position the kernel maps each sample point to:
`(uniforms.invAffine * vec4f(origin + t * dir, 1.0)).xyz`
(src/main/code.js lines 49-51). -/
def mappedPos (invAffine : Mat4) (origin dir : Vec3) (t : ℚ) : Vec3 :=
  let worldPos : Vec3 :=
    ⟨origin.x + t * dir.x, origin.y + t * dir.y, origin.z + t * dir.z⟩
  let v4 := mulVec invAffine ⟨worldPos.x, worldPos.y, worldPos.z, 1⟩
  ⟨v4.x, v4.y, v4.z⟩

/-- The bounding test `all(voxelPos >= vec3f(0.0)) &&
all(voxelPos <= vec3f(1.0))` (src/main/code.js line 53). -/
def insideUnit (v : Vec3) : Bool :=
  (0 ≤ v.x && 0 ≤ v.y && 0 ≤ v.z) && (v.x ≤ 1 && v.y ≤ 1 && v.z ≤ 1)

/-- The secondary bounds test `all(texCoord >= vec3f(0.0)) &&
all(texCoord <= uniforms.volumeDims - vec3f(1.0))` (src/main/code.js
line 55). -/
def insideTexBounds (c dims : Vec3) : Bool :=
  (0 ≤ c.x && 0 ≤ c.y && 0 ≤ c.z) &&
  (c.x ≤ dims.x - 1 && c.y ≤ dims.y - 1 && c.z ≤ dims.z - 1)

/-- One iteration of the marching loop of `fsMain` (src/main/code.js
lines 48-61), given the texture as a function from texel coordinates to
density.  Returns the accumulator after the step together with the texel
coordinate passed to `textureLoad`, when the fetch was executed. -/
def marchStepCore (u : ShaderUniforms) (tex : ℕ → ℕ → ℕ → ℚ)
    (origin dir : Vec3) (t sum : ℚ) : ℚ × Option (ℕ × ℕ × ℕ) :=
  let voxelPos := mappedPos u.invAffine origin dir t
  if insideUnit voxelPos then
    let texCoord : Vec3 :=
      ⟨voxelPos.x * (u.volumeDims.x - 1), voxelPos.y * (u.volumeDims.y - 1),
       voxelPos.z * (u.volumeDims.z - 1)⟩
    if insideTexBounds texCoord u.volumeDims then
      let c := (toTexel texCoord.x, toTexel texCoord.y, toTexel texCoord.z)
      let d := tex c.1 c.2.1 c.2.2
      (sum + d * smoothstepQ u.thresholdLow u.thresholdHigh d * 0.0001,
       some c)
    else (sum, none)
  else (sum, none)

/-- The accumulator after one marching step. -/
def marchStep (u : ShaderUniforms) (tex : ℕ → ℕ → ℕ → ℚ)
    (origin dir : Vec3) (t sum : ℚ) : ℚ :=
  (marchStepCore u tex origin dir t sum).1

/-- The texel coordinate a marching step hands to `textureLoad`, when the
fetch executes. -/
def marchFetch (u : ShaderUniforms) (tex : ℕ → ℕ → ℕ → ℚ)
    (origin dir : Vec3) (t sum : ℚ) : Option (ℕ × ℕ × ℕ) :=
  (marchStepCore u tex origin dir t sum).2

/-! ### The interaction controller (src/main/code.js lines 164-192) -/

/-- The closure state mutated by the event handlers. -/
structure CamState where
  theta : ℚ
  phi : ℚ
  radius : ℚ
  lastX : ℚ
  lastY : ℚ
  dragging : Bool
deriving DecidableEq, Repr

/-- Pointer and wheel events, carrying `clientX`/`clientY` or `deltaY`. -/
inductive CamEvent where
  | mouseDown (x y : ℚ)
  | mouseUp
  | mouseMove (x y : ℚ)
  | wheel (deltaY : ℚ)

/-- The initial camera state (src/main/code.js lines 164-170).  `piVal`
stands for the runtime's `Math.PI` constant. -/
def camInit (piVal : ℚ) : CamState :=
  { theta := piVal / 2, phi := piVal / 2, radius := 2.5
    lastX := 0, lastY := 0, dragging := false }

/-- The event handlers (src/main/code.js lines 172-192): `mousedown`
records the anchor and enters dragging; `mouseup` leaves it; `mousemove`
while dragging updates `theta`/`phi` with the clamp
`Math.max(0.05, Math.min(Math.PI - 0.05, phi))`; `wheel` rescales the
radius with the clamp `Math.max(0.5, Math.min(10.0, radius))`. -/
def camStep (piVal : ℚ) (s : CamState) : CamEvent → CamState
  | .mouseDown x y => { s with dragging := true, lastX := x, lastY := y }
  | .mouseUp => { s with dragging := false }
  | .mouseMove x y =>
    if s.dragging then
      let dx := x - s.lastX
      let dy := y - s.lastY
      { s with lastX := x, lastY := y
               theta := s.theta - dx * 0.005
               phi := max 0.05 (min (piVal - 0.05) (s.phi - dy * 0.005)) }
    else s
  | .wheel deltaY =>
    { s with radius := max 0.5 (min 10.0 (s.radius * (1 + deltaY * 0.001))) }

/-! ### Camera matrix derivation (src/main/code.js lines 194-206) -/

/-- An opaque gl-matrix `mat4` value. -/
abbrev GlMat := List ℚ

/-- The external gl-matrix library (and the `Math` trigonometric
builtins), modelled as an arbitrary record of pure functions: the claims
about matrix derivation do not depend on their internals, only on their
being functions. -/
structure Mat4Lib where
  sinF : ℚ → ℚ
  cosF : ℚ → ℚ
  perspective : ℚ → ℚ → ℚ → ℚ → GlMat
  lookAt : Vec3 → Vec3 → Vec3 → GlMat
  multiply : GlMat → GlMat → GlMat
  invert : GlMat → Option GlMat

/-- The orbit parameters `render` reads. -/
structure CameraParams where
  theta : ℚ
  phi : ℚ
  radius : ℚ
  target : Vec3
deriving DecidableEq, Repr

/-- The per-frame matrix derivation in `render` (src/main/code.js lines
195-205): perspective projection with fovy `Math.PI / 4`, near `0.1`,
far `100`; eye on the orbit sphere; look-at toward the target with up
`(0, 1, 0)`; `invViewProj = invert(proj * view)` (`invert` yields `none`
on a singular input, as gl-matrix returns `null`). -/
def deriveMatrices (lib : Mat4Lib) (piVal : ℚ) (c : CameraParams)
    (aspect : ℚ) : GlMat × GlMat × Option GlMat :=
  let proj := lib.perspective (piVal / 4) aspect 0.1 100
  let eye : Vec3 :=
    ⟨c.target.x + c.radius * lib.sinF c.phi * lib.cosF c.theta,
     c.target.y + c.radius * lib.cosF c.phi,
     c.target.z + c.radius * lib.sinF c.phi * lib.sinF c.theta⟩
  let view := lib.lookAt eye c.target ⟨0, 1, 0⟩
  let viewProj := lib.multiply proj view
  (proj, view, lib.invert viewProj)

/-- The camera-state invariant the spec claims: elevation clamped away
from the poles, radius clamped to the orbit shell. -/
def camInv (piVal : ℚ) (s : CamState) : Prop :=
  0.05 ≤ s.phi ∧ s.phi ≤ piVal - 0.05 ∧ 0.5 ≤ s.radius ∧ s.radius ≤ 10

/-- A matrix whose first column is ones: maps the sample point used by
the C6 witness outside the unit cube. -/
def rowMat : Mat4 := fun c _ => if c = 0 then 1 else 0

/-- The zero matrix, used by the C7 witness. -/
def zeroMat : Mat4 := fun _ _ => 0

/-- A concrete instantiation of the external matrix library, used only to
exercise the matrix-derivation theorem at a closed input. -/
def constLib : Mat4Lib :=
  { sinF := id, cosF := id
    perspective := fun _ _ _ _ => []
    lookAt := fun _ _ _ => []
    multiply := fun _ _ => []
    invert := fun _ => none }

/-! ### Structural description of the Form-A line loop

The loop in `parseVoxelTxt` threads one mutable state through all lines.
The functions below describe each accumulator separately — which lines
belong to a given section and what they contribute — and
`parseLines_eq` proves the loop equal to this description. -/

/-- Numeric tokens contributed to the accumulator of section `tag` by a
line list, given the section that is current when the list starts. -/
def sectionNums (tag : Str) : List Str → Option Str → List JsNum
  | [], _ => []
  | l :: ls, cur =>
    if startsDashDash l then sectionNums tag ls (some (jsTrim l))
    else if cur = some tag then lineNums l ++ sectionNums tag ls cur
    else sectionNums tag ls cur

/-- Characters contributed to `voxelLine` by a line list (each voxel-line
is trimmed and a space appended). -/
def voxelConcat : List Str → Option Str → Str
  | [], _ => []
  | l :: ls, cur =>
    if startsDashDash l then voxelConcat ls (some (jsTrim l))
    else if cur = some voxelTag then
      (jsTrim l ++ [' ']) ++ voxelConcat ls cur
    else voxelConcat ls cur

/-- The section that is current after a line list has been scanned. -/
def finalSec : List Str → Option Str → Option Str
  | [], cur => cur
  | l :: ls, cur =>
    finalSec ls (if startsDashDash l then some (jsTrim l) else cur)

/-- Numeric tokens of the `--header--` section of a Form-A text. -/
def shapeNums (text : String) : List JsNum :=
  sectionNums headerTag (jsSplit '\n' text.data) none

/-- Numeric tokens of the `--affine--` section of a Form-A text. -/
def affineNums (text : String) : List JsNum :=
  sectionNums affineTag (jsSplit '\n' text.data) none

/-- Numeric tokens of the `--voxel--` section of a Form-A text, through
the concatenate-then-split pipeline the source applies to `voxelLine`. -/
def voxelNums (text : String) : List JsNum :=
  (jsSplit ' '
    (jsTrim (voxelConcat (jsSplit '\n' text.data) none))).map jsNumber

/-- A Form-A text contains a marker line that selects the `--affine--`
section. -/
def hasAffineMarker (text : String) : Prop :=
  ∃ l ∈ jsSplit '\n' text.data, startsDashDash l = true ∧ jsTrim l = affineTag

instance (text : String) : Decidable (hasAffineMarker text) := by
  unfold hasAffineMarker; infer_instance

/-- The contract of the external gl-matrix `mat4.invert` used by `render`
(src/main/code.js line 206).  Modelled from the library's documented
behaviour: it computes the determinant and returns `null` when it is zero
(or NaN, which is falsy in the `if (!det)` test); only then does the
inverse exist.  `true` means a non-null inverse is produced. -/
def mat4InvertSucceeds (m : List JsNum) : Bool :=
  match det4 m with
  | some q => q ≠ 0
  | none => false

/-! ### Concrete inputs used by the closed evaluation theorems -/

/-- A minimal Form-A text whose `--affine--` section is missing. -/
def noAffineText : String := "--header--\n1 1 1\n--voxel--\n5"

/-- A Form-A text whose affine section holds sixteen zeros — a matrix
with determinant exactly zero. -/
def zeroAffineText : String :=
  "--header--\n1 1 1\n--affine--\n0 0 0 0\n0 0 0 0\n0 0 0 0\n0 0 0 0\n--voxel--\n5"

/-- A Form-A text describing a 1×1×1 volume with identity affine and the
single sample 7. -/
def sameVolumeTxt : String :=
  "--header--\n1 1 1\n--affine--\n1 0 0 0\n0 1 0 0\n0 0 1 0\n0 0 0 1\n--voxel--\n7"

/-- The Form-B document describing the same logical volume as
`sameVolumeTxt`: identical shape triple, identical 16 row-major affine
entries, identical depth-major sample sequence. -/
def sameVolumeJson : JsonVolume :=
  { shape := [.val 1, .val 1, .val 1]
    affine := [[.val 1, .val 0, .val 0, .val 0],
               [.val 0, .val 1, .val 0, .val 0],
               [.val 0, .val 0, .val 1, .val 0],
               [.val 0, .val 0, .val 0, .val 1]]
    voxel_data := [[[.val 7]]] }

/-- The runtime constant `Math.PI`: the IEEE-754 double nearest to π,
whose exact value is `884279719003555 / 2^48`, given in lowest terms so
that comparisons against it reduce inside the kernel. -/
def jsPi : ℚ := ⟨884279719003555, 281474976710656, by decide, by decide⟩

theorem parseLines_eq (lines : List Str) (st : ParseState) :
    lines.foldl psStep st =
      { sec := finalSec lines st.sec
        shape := st.shape ++ sectionNums headerTag lines st.sec
        affineValues := st.affineValues ++ sectionNums affineTag lines st.sec
        voxelLine := st.voxelLine ++ voxelConcat lines st.sec } := by
  induction lines generalizing st with
  | nil => simp [sectionNums, voxelConcat, finalSec]
  | cons l ls ih =>
    simp only [List.foldl_cons]
    rw [ih]
    by_cases hd : startsDashDash l
    · simp [psStep, hd, sectionNums, voxelConcat, finalSec]
    · cases hsec : st.sec with
      | none =>
        simp [psStep, hd, hsec, sectionNums, voxelConcat, finalSec]
      | some s =>
        by_cases hh : s = headerTag
        · subst hh
          simp [psStep, hd, hsec, sectionNums, voxelConcat, finalSec,
            headerTag, affineTag, voxelTag]
        · by_cases ha : s = affineTag
          · subst ha
            simp [psStep, hd, hsec, sectionNums, voxelConcat, finalSec,
              headerTag, affineTag, voxelTag]
          · by_cases hv : s = voxelTag
            · subst hv
              simp [psStep, hd, hsec, sectionNums, voxelConcat, finalSec,
                headerTag, affineTag, voxelTag]
            · simp [psStep, hd, hsec, hh, ha, hv, sectionNums, voxelConcat,
                finalSec]

theorem parseVoxelTxt_eq (text : String) :
    parseVoxelTxt text =
      { voxel := voxelNums text
        dims := dimsReorder (shapeNums text)
        affine := affineNums text } := by
  simp only [parseVoxelTxt, voxelNums, shapeNums, affineNums, parseLines_eq,
    List.nil_append]

theorem sectionNums_nil_of_no_marker (tag : Str) (lines : List Str)
    (cur : Option Str)
    (hcur : cur ≠ some tag)
    (h : ∀ l ∈ lines, ¬(startsDashDash l = true ∧ jsTrim l = tag)) :
    sectionNums tag lines cur = [] := by
  induction lines generalizing cur with
  | nil => simp [sectionNums]
  | cons l ls ih =>
    have hl := h l (by simp)
    by_cases hd : startsDashDash l
    · have : jsTrim l ≠ tag := by
        intro hc; exact hl ⟨hd, hc⟩
      simp only [sectionNums, hd, if_true]
      exact ih (some (jsTrim l)) (by simpa using this)
        (fun l hm => h l (by simp [hm]))
    · simp only [sectionNums, hd, if_false, if_neg hcur]
      exact ih cur hcur (fun l hm => h l (by simp [hm]))

/-! ### Claim theorems -/

/-- C10: for every input text string, the Form-A parser returns a
`{voxel, dims, affine}` record without throwing: its result is exactly
the token content of each section (every accumulator is total — there is
no error path in its codomain), and, as the concrete conjunct shows on a
malformed input, non-numeric tokens become NaN entries, a missing
`--affine--` section yields an empty array, and a short header leaves a
`dims` component undefined (`none`). -/
theorem parseVoxelTxt_total_returns_record :
    (∀ text : String,
      parseVoxelTxt text =
        { voxel := voxelNums text
          dims := [(shapeNums text)[1]?, (shapeNums text)[2]?,
                   (shapeNums text)[0]?]
          affine := affineNums text }) ∧
    parseVoxelTxt ("--header--\n3 zz\n--voxel--\n1 q") =
      { voxel := [.val 1, .nan]
        dims := [some .nan, none, some (.val 3)]
        affine := [] } := by
  refine ⟨fun text => ?_, by decide⟩
  rw [parseVoxelTxt_eq]; rfl

/-- C3: a valid Form-A text and a Form-B document that describe the same
logical volume — identical 3-entry shape triple, identical 16 row-major
affine entries, identical depth-major sample sequence — are ingested to
bit-identical records: equal `dims`, equal `affine`, equal samples in the
same order. -/
theorem formA_formB_ingest_agree (text : String) (j : JsonVolume)
    (hshape : shapeNums text = j.shape)
    (hshape3 : j.shape.length = 3)
    (haff : affineNums text = j.affine.flatten)
    (haff16 : j.affine.flatten.length = 16)
    (hvox : voxelNums text = (j.voxel_data.map List.flatten).flatten) :
    parseVoxelTxt text = loadVolumeJSON j := by
  rw [parseVoxelTxt_eq]
  simp only [loadVolumeJSON, dimsReorder, hshape, haff, hvox]

/-- Witness for C3 at `sameVolumeTxt` / `sameVolumeJson`. -/
theorem formA_formB_ingest_agree_witness :
    (shapeNums sameVolumeTxt = sameVolumeJson.shape ∧
     sameVolumeJson.shape.length = 3 ∧
     affineNums sameVolumeTxt = sameVolumeJson.affine.flatten ∧
     sameVolumeJson.affine.flatten.length = 16 ∧
     voxelNums sameVolumeTxt =
       (sameVolumeJson.voxel_data.map List.flatten).flatten) ∧
    parseVoxelTxt sameVolumeTxt = loadVolumeJSON sameVolumeJson :=
  ⟨⟨by decide, by decide, by decide, by decide, by decide⟩,
   formA_formB_ingest_agree sameVolumeTxt sameVolumeJson (by decide)
     (by decide) (by decide) (by decide) (by decide)⟩

/-- C1 (evaluation at the failing input): on a header triple
`[d,h,w] = [1,2,3]`, both ingestion functions produce
`dims = (2,3,1) = (h,w,d)`, which differs from the `(w,h,d) = (3,2,1)`
required by the spec; the code's reorder `[shape[1], shape[2], shape[0]]`
swaps the first two consumed axes whenever `h ≠ w`. -/
theorem dims_reorder_eval_at_123 :
    (parseVoxelTxt ("--header--\n1 2 3")).dims =
      [some (.val 2), some (.val 3), some (.val 1)] ∧
    (loadVolumeJSON { shape := [.val 1, .val 2, .val 3], affine := [],
                      voxel_data := [] }).dims =
      [some (.val 2), some (.val 3), some (.val 1)] ∧
    ([some (.val 2), some (.val 3), some (.val 1)] :
        List (Option JsNum)) ≠
      [some (.val 3), some (.val 2), some (.val 1)] := by
  refine ⟨by decide, by decide, by decide⟩

/-- C4 (counterexample): on a Form-A input with no `--affine--` section
the parser does not raise anything — it returns a record whose affine
array is empty — and the entry point still hands the record to `main`,
which issues the GPU texture upload. -/
theorem missing_affine_still_uploads :
    ¬ hasAffineMarker noAffineText ∧
    (parseVoxelTxt noAffineText).affine = [] ∧
    ingestThenMain noAffineText =
      some { size := [some (.val 1), some (.val 1), some (.val 1)]
             data := [.val 5]
             bytesPerRow := .val 4
             rowsPerImage := some (.val 1) } := by
  have hp : parseVoxelTxt noAffineText =
      { voxel := [.val 5]
        dims := [some (.val 1), some (.val 1), some (.val 1)]
        affine := [] } := by decide
  refine ⟨by decide, by rw [hp], ?_⟩
  simp only [ingestThenMain, hp, mainUploadCmd, jsMulOpt]
  norm_num

/-- C4 (amended): for every Form-A input whose `--affine--` section is
missing, ingestion raises nothing: the returned record's affine array is
empty, and the entry point still invokes `main` — hence the GPU upload —
with that record. -/
theorem missing_affine_no_error (text : String)
    (h : ¬ hasAffineMarker text) :
    (parseVoxelTxt text).affine = [] ∧
    ingestThenMain text = some (mainUploadCmd (parseVoxelTxt text)) := by
  refine ⟨?_, rfl⟩
  rw [parseVoxelTxt_eq]
  show affineNums text = []
  unfold affineNums
  refine sectionNums_nil_of_no_marker _ _ _ (by simp) ?_
  intro l hl hc
  exact h ⟨l, hl, hc⟩

/-- Witness for the amended C4 at `noAffineText`. -/
theorem missing_affine_no_error_witness :
    ¬ hasAffineMarker noAffineText ∧
    ((parseVoxelTxt noAffineText).affine = [] ∧
     ingestThenMain noAffineText =
       some (mainUploadCmd (parseVoxelTxt noAffineText))) :=
  ⟨by decide, missing_affine_no_error noAffineText (by decide)⟩

/-- C9 (counterexample): a Form-A input whose affine section is sixteen
zeros — determinant exactly zero — is not rejected: ingestion returns the
record and the entry point issues the GPU upload for it. -/
theorem zero_det_affine_accepted :
    det4 (parseVoxelTxt zeroAffineText).affine = some 0 ∧
    ingestThenMain zeroAffineText =
      some { size := [some (.val 1), some (.val 1), some (.val 1)]
             data := [.val 5]
             bytesPerRow := .val 4
             rowsPerImage := some (.val 1) } := by
  have hp : parseVoxelTxt zeroAffineText =
      { voxel := [.val 5]
        dims := [some (.val 1), some (.val 1), some (.val 1)]
        affine := List.replicate 16 (.val 0) } := by decide
  constructor
  · rw [hp]
    show det4 (List.replicate 16 (.val 0)) = some 0
    simp [det4, List.replicate]
  · simp only [ingestThenMain, hp, mainUploadCmd, jsMulOpt]
    norm_num

/-- C9 (amended): ingestion performs no invertibility check.  For every
input whose parsed affine matrix has determinant exactly zero, the volume
is still accepted at load time and handed to rendering; the degenerate
matrix only surfaces inside the render loop, where gl-matrix
`mat4.invert` yields `null`. -/
theorem zero_det_affine_passed_to_render (text : String)
    (h : det4 (parseVoxelTxt text).affine = some 0) :
    ingestThenMain text = some (mainUploadCmd (parseVoxelTxt text)) ∧
    mat4InvertSucceeds (parseVoxelTxt text).affine = false := by
  refine ⟨rfl, ?_⟩
  simp [mat4InvertSucceeds, h]

/-- Witness for the amended C9 at `zeroAffineText`. -/
theorem zero_det_affine_passed_to_render_witness :
    det4 (parseVoxelTxt zeroAffineText).affine = some 0 ∧
    (ingestThenMain zeroAffineText =
       some (mainUploadCmd (parseVoxelTxt zeroAffineText)) ∧
     mat4InvertSucceeds (parseVoxelTxt zeroAffineText).affine = false) := by
  have h : det4 (parseVoxelTxt zeroAffineText).affine = some 0 := by
    have hp : (parseVoxelTxt zeroAffineText).affine =
        List.replicate 16 (.val 0) := by decide
    rw [hp]
    simp [det4, List.replicate]
  exact ⟨h, zero_det_affine_passed_to_render zeroAffineText h⟩

theorem set_append_right' (s t : List ℚ) (i n : ℕ) (x : ℚ)
    (h : s.length = n) (hin : n ≤ i) :
    (s ++ t).set i x = s ++ t.set (i - n) x := by
  rw [List.set_append, if_neg (by omega), h]

theorem uniform_concat (a v d : List ℚ) (low high : ℚ)
    (ha : a.length = 16) (hv : v.length = 16) (hd : d.length = 3) :
    writeFrameData a v d low high =
      a ++ v ++ d ++ low :: high :: List.replicate 3 0 := by
  have s1 : taSet (List.replicate (uniformBufferSize / 4) 0) a 0 =
      a ++ List.replicate 24 0 := by
    unfold taSet
    rw [show uniformBufferSize / 4 = 40 from rfl, List.take_zero,
      List.drop_replicate, ha]
    norm_num
  have s2 : taSet (a ++ List.replicate 24 0) v 16 =
      a ++ (v ++ List.replicate 8 0) := by
    unfold taSet
    rw [hv, show (16:ℕ) = a.length from ha.symm, List.take_left,
      show a.length + a.length = a.length + 16 by rw [ha],
      List.drop_append, List.drop_replicate, List.append_assoc]
  have s3 : taSet (a ++ (v ++ List.replicate 8 0)) d 32 =
      (a ++ v) ++ (d ++ List.replicate 5 0) := by
    unfold taSet
    rw [hd, ← List.append_assoc,
      show (32:ℕ) = (a ++ v).length + 0 by simp [ha, hv],
      List.take_append,
      show (a ++ v).length + 0 + 3 = (a ++ v).length + 3 by omega,
      List.drop_append, List.drop_replicate]
    simp
  unfold writeFrameData
  rw [s1, s2, s3]
  rw [set_append_right' (a ++ v) _ 35 32 low (by simp [ha, hv]) (by omega)]
  rw [set_append_right' (a ++ v) _ 36 32 high (by simp [ha, hv]) (by omega)]
  rw [show (35:ℕ) - 32 = 3 from rfl, show (36:ℕ) - 32 = 4 from rfl]
  rw [set_append_right' d _ 3 3 low hd (by omega)]
  rw [set_append_right' d _ 4 3 high hd (by omega)]
  rw [show (3:ℕ) - 3 = 0 from rfl, show (4:ℕ) - 3 = 1 from rfl]
  rw [show (List.replicate 5 (0:ℚ)) = 0 :: 0 :: List.replicate 3 0 from rfl]
  simp [List.append_assoc]

/-- C2: for every `UniformFrame` (any 16-entry `invAffine`, 16-entry
`invViewProj`, 3-entry `volumeDims`, and thresholds), the per-frame
serialization is the 160-byte buffer laid out as
`invAffine | invViewProj | volumeDims | thresholdLow | thresholdHigh |
padding`, with field byte-offsets exactly `invAffine : 0`,
`invViewProj : 64`, `volumeDims : 128`, `thresholdLow : 140`,
`thresholdHigh : 144` (each 4-byte float slot `i` holds bytes
`4i..4i+3`). -/
theorem uniform_layout (a v d : List ℚ) (low high : ℚ)
    (ha : a.length = 16) (hv : v.length = 16) (hd : d.length = 3) :
    writeFrameData a v d low high =
      a ++ v ++ d ++ low :: high :: List.replicate 3 0 ∧
    4 * (writeFrameData a v d low high).length = uniformBufferSize ∧
    uniformBufferSize = 160 ∧
    (∀ k, k < 16 →
      (writeFrameData a v d low high)[(0 + 4 * k) / 4]? = a[k]?) ∧
    (∀ k, k < 16 →
      (writeFrameData a v d low high)[(64 + 4 * k) / 4]? = v[k]?) ∧
    (∀ k, k < 3 →
      (writeFrameData a v d low high)[(128 + 4 * k) / 4]? = d[k]?) ∧
    (writeFrameData a v d low high)[140 / 4]? = some low ∧
    (writeFrameData a v d low high)[144 / 4]? = some high := by
  have hc := uniform_concat a v d low high ha hv hd
  rw [hc]
  simp only [List.append_assoc]
  refine ⟨trivial, by simp [ha, hv, hd, uniformBufferSize], rfl,
    ?_, ?_, ?_, ?_, ?_⟩
  · intro k hk
    rw [show (0 + 4 * k) / 4 = k by omega,
      List.getElem?_append_left (by omega)]
  · intro k hk
    rw [show (64 + 4 * k) / 4 = 16 + k by omega,
      List.getElem?_append_right (by omega), ha,
      show 16 + k - 16 = k by omega,
      List.getElem?_append_left (by omega)]
  · intro k hk
    rw [show (128 + 4 * k) / 4 = 32 + k by omega,
      List.getElem?_append_right (by omega), ha,
      show 32 + k - 16 = 16 + k by omega,
      List.getElem?_append_right (by omega), hv,
      show 16 + k - 16 = k by omega,
      List.getElem?_append_left (by omega)]
  · rw [show (140:ℕ) / 4 = 35 from rfl,
      List.getElem?_append_right (by omega), ha,
      List.getElem?_append_right (by omega), hv,
      List.getElem?_append_right (by omega), hd]
    rfl
  · rw [show (144:ℕ) / 4 = 36 from rfl,
      List.getElem?_append_right (by omega), ha,
      List.getElem?_append_right (by omega), hv,
      List.getElem?_append_right (by omega), hd]
    rfl

/-- Witness for C2 at a concrete frame. -/
theorem uniform_layout_witness :
    ((List.replicate 16 (0:ℚ)).length = 16 ∧
     (List.replicate 16 (1:ℚ)).length = 16 ∧
     (List.replicate 3 (2:ℚ)).length = 3) ∧
    ((writeFrameData (List.replicate 16 0) (List.replicate 16 1)
        (List.replicate 3 2) 5 6)[140 / 4]? = some 5 ∧
     (writeFrameData (List.replicate 16 0) (List.replicate 16 1)
        (List.replicate 3 2) 5 6)[144 / 4]? = some 6) :=
  ⟨⟨by decide, by decide, by decide⟩,
   (uniform_layout (List.replicate 16 0) (List.replicate 16 1)
      (List.replicate 3 2) 5 6 (by decide) (by decide)
      (by decide)).2.2.2.2.2.2⟩

theorem camInv_init (piVal : ℚ) (hpi : 1 ≤ piVal) :
    camInv piVal (camInit piVal) := by
  unfold camInv camInit
  refine ⟨?_, ?_, ?_, ?_⟩ <;> norm_num <;> linarith

theorem camInv_step (piVal : ℚ) (hpi : 1 ≤ piVal) (s : CamState)
    (e : CamEvent) (h : camInv piVal s) :
    camInv piVal (camStep piVal s e) := by
  obtain ⟨h1, h2, h3, h4⟩ := h
  have hlo : (0.05 : ℚ) ≤ piVal - 0.05 := by norm_num; linarith
  cases e with
  | mouseDown x y => exact ⟨h1, h2, h3, h4⟩
  | mouseUp => exact ⟨h1, h2, h3, h4⟩
  | mouseMove x y =>
    show camInv piVal (if s.dragging then _ else s)
    by_cases hdrag : s.dragging
    · simp only [hdrag, if_true]
      exact ⟨le_max_left _ _, max_le hlo (min_le_left _ _), h3, h4⟩
    · simp only [hdrag, if_false]
      exact ⟨h1, h2, h3, h4⟩
  | wheel dy =>
    refine ⟨h1, h2, le_max_left _ _, ?_⟩
    exact max_le (by norm_num) ((min_le_left _ _).trans (by norm_num))

theorem camInv_foldl (piVal : ℚ) (hpi : 1 ≤ piVal) (es : List CamEvent)
    (s : CamState) (h : camInv piVal s) :
    camInv piVal (es.foldl (camStep piVal) s) := by
  induction es generalizing s with
  | nil => exact h
  | cons e es ih => exact ih _ (camInv_step piVal hpi s e h)

/-- C5: for every finite sequence of pointer-drag and wheel events
applied to the initial camera state, the resulting state satisfies
`phi ∈ [0.05, π − 0.05]` and `radius ∈ [0.5, 10.0]` — `piVal` stands for
the runtime constant `Math.PI` (any value of the constant with
`1 ≤ piVal` works); since this holds for every event list, it holds
after every event of any sequence. -/
theorem camera_clamps (piVal : ℚ) (hpi : 1 ≤ piVal) (es : List CamEvent) :
    0.05 ≤ (es.foldl (camStep piVal) (camInit piVal)).phi ∧
    (es.foldl (camStep piVal) (camInit piVal)).phi ≤ piVal - 0.05 ∧
    0.5 ≤ (es.foldl (camStep piVal) (camInit piVal)).radius ∧
    (es.foldl (camStep piVal) (camInit piVal)).radius ≤ 10 :=
  camInv_foldl piVal hpi es (camInit piVal) (camInv_init piVal hpi)

/-- Witness for C5 at `Math.PI` and a drag-then-zoom event sequence. -/
theorem camera_clamps_witness :
    (1 : ℚ) ≤ jsPi ∧
    (0.05 ≤ (([CamEvent.mouseDown 0 0, CamEvent.mouseMove 3 500,
        CamEvent.wheel 100].foldl (camStep jsPi) (camInit jsPi))).phi ∧
     (([CamEvent.mouseDown 0 0, CamEvent.mouseMove 3 500,
        CamEvent.wheel 100].foldl (camStep jsPi) (camInit jsPi))).phi ≤
       jsPi - 0.05 ∧
     0.5 ≤ (([CamEvent.mouseDown 0 0, CamEvent.mouseMove 3 500,
        CamEvent.wheel 100].foldl (camStep jsPi) (camInit jsPi))).radius ∧
     (([CamEvent.mouseDown 0 0, CamEvent.mouseMove 3 500,
        CamEvent.wheel 100].foldl (camStep jsPi) (camInit jsPi))).radius ≤
       10) :=
  ⟨by decide, camera_clamps jsPi (by decide) _⟩

theorem toTexel_cast_le (q : ℚ) (h0 : 0 ≤ q) : (toTexel q : ℚ) ≤ q := by
  unfold toTexel
  have h1 : (0:ℤ) ≤ q.floor := Int.floor_nonneg.mpr h0
  calc ((q.floor.toNat : ℕ) : ℚ)
      = ((q.floor.toNat : ℤ) : ℚ) := by push_cast; ring
    _ = ((q.floor : ℤ) : ℚ) := by rw [Int.toNat_of_nonneg h1]
    _ ≤ q := Int.floor_le q

/-- C6: a marching step whose mapped voxel-normalized position
`invAffine · (origin + t·dir)` lies outside `[0,1]³` — some coordinate
below 0 or above 1 — contributes exactly 0 to `sum`: the accumulator
after the step equals the accumulator before it. -/
theorem outside_unit_contributes_zero (u : ShaderUniforms)
    (tex : ℕ → ℕ → ℕ → ℚ) (origin dir : Vec3) (t sum : ℚ)
    (h : (mappedPos u.invAffine origin dir t).x < 0 ∨
         (mappedPos u.invAffine origin dir t).y < 0 ∨
         (mappedPos u.invAffine origin dir t).z < 0 ∨
         1 < (mappedPos u.invAffine origin dir t).x ∨
         1 < (mappedPos u.invAffine origin dir t).y ∨
         1 < (mappedPos u.invAffine origin dir t).z) :
    marchStep u tex origin dir t sum = sum := by
  have hb : insideUnit (mappedPos u.invAffine origin dir t) = false := by
    rw [Bool.eq_false_iff]
    intro htrue
    simp only [insideUnit, Bool.and_eq_true, decide_eq_true_eq] at htrue
    obtain ⟨⟨⟨hx0, hy0⟩, hz0⟩, ⟨hx1, hy1⟩, hz1⟩ := htrue
    rcases h with h|h|h|h|h|h <;> linarith
  unfold marchStep marchStepCore
  simp only [hb, Bool.false_eq_true, if_false]

/-- Witness for C6: a sample point mapped to x = 2, outside the unit
cube, leaves the accumulator (here 5) unchanged. -/
theorem outside_unit_contributes_zero_witness :
    1 < (mappedPos rowMat ⟨2, 0, 0⟩ ⟨0, 0, 0⟩ 0).x ∧
    marchStep ⟨rowMat, rowMat, ⟨1, 1, 1⟩, 0, 1⟩ (fun _ _ _ => 0)
      ⟨2, 0, 0⟩ ⟨0, 0, 0⟩ 0 5 = 5 := by
  have hx : (mappedPos rowMat ⟨2, 0, 0⟩ ⟨0, 0, 0⟩ 0).x = 2 := by
    simp [mappedPos, mulVec, rowMat]
  refine ⟨by rw [hx]; decide, ?_⟩
  exact outside_unit_contributes_zero _ _ _ _ _ _
    (Or.inr (Or.inr (Or.inr (Or.inl (by
      rw [show (⟨rowMat, rowMat, ⟨1, 1, 1⟩, 0, 1⟩ :
        ShaderUniforms).invAffine = rowMat from rfl, hx]
      decide)))))

/-- C7: whenever a marching step executes `textureLoad` — the secondary
bounds test passed — the texel coordinate handed to it lies within
`[0, dims − 1]` on every axis (stated for uniforms with
`dims ≥ 1` componentwise, as in the claim); an out-of-range fetch is
unreachable, since `marchFetch` yields `none` on every other path. -/
theorem fetch_within_texture (u : ShaderUniforms) (tex : ℕ → ℕ → ℕ → ℚ)
    (origin dir : Vec3) (t sum : ℚ) (c : ℕ × ℕ × ℕ)
    (hdx : 1 ≤ u.volumeDims.x) (hdy : 1 ≤ u.volumeDims.y)
    (hdz : 1 ≤ u.volumeDims.z)
    (h : marchFetch u tex origin dir t sum = some c) :
    (0 ≤ (c.1 : ℚ) ∧ (c.1 : ℚ) ≤ u.volumeDims.x - 1) ∧
    (0 ≤ (c.2.1 : ℚ) ∧ (c.2.1 : ℚ) ≤ u.volumeDims.y - 1) ∧
    (0 ≤ (c.2.2 : ℚ) ∧ (c.2.2 : ℚ) ≤ u.volumeDims.z - 1) := by
  unfold marchFetch marchStepCore at h
  by_cases h1 : insideUnit (mappedPos u.invAffine origin dir t)
  · rw [if_pos h1] at h
    by_cases h2 : insideTexBounds
        ⟨(mappedPos u.invAffine origin dir t).x * (u.volumeDims.x - 1),
         (mappedPos u.invAffine origin dir t).y * (u.volumeDims.y - 1),
         (mappedPos u.invAffine origin dir t).z * (u.volumeDims.z - 1)⟩
        u.volumeDims
    · rw [if_pos h2] at h
      simp only [Option.some.injEq] at h
      subst h
      simp only [insideTexBounds, Bool.and_eq_true, decide_eq_true_eq] at h2
      obtain ⟨⟨⟨hx0, hy0⟩, hz0⟩, ⟨hx1, hy1⟩, hz1⟩ := h2
      refine ⟨⟨by positivity, ?_⟩, ⟨by positivity, ?_⟩,
        ⟨by positivity, ?_⟩⟩
      · exact (toTexel_cast_le _ hx0).trans hx1
      · exact (toTexel_cast_le _ hy0).trans hy1
      · exact (toTexel_cast_le _ hz0).trans hz1
    · rw [if_neg h2] at h
      exact absurd h (by simp)
  · rw [if_neg h1] at h
    exact absurd h (by simp)

/-- Witness for C7: a step on a 1×1×1 volume that does fetch, at texel
(0,0,0), within `[0, dims − 1]` on every axis. -/
theorem fetch_within_texture_witness :
    ((1 : ℚ) ≤ (⟨zeroMat, zeroMat, ⟨1, 1, 1⟩, 0, 1⟩ :
        ShaderUniforms).volumeDims.x ∧
     (1 : ℚ) ≤ (⟨zeroMat, zeroMat, ⟨1, 1, 1⟩, 0, 1⟩ :
        ShaderUniforms).volumeDims.y ∧
     (1 : ℚ) ≤ (⟨zeroMat, zeroMat, ⟨1, 1, 1⟩, 0, 1⟩ :
        ShaderUniforms).volumeDims.z ∧
     marchFetch (⟨zeroMat, zeroMat, ⟨1, 1, 1⟩, 0, 1⟩ : ShaderUniforms)
       (fun _ _ _ => 0) ⟨0, 0, 0⟩ ⟨0, 0, 0⟩ 0 0 = some (0, 0, 0)) ∧
    ((0 ≤ ((0 : ℕ) : ℚ) ∧
      ((0 : ℕ) : ℚ) ≤ (⟨zeroMat, zeroMat, ⟨1, 1, 1⟩, 0, 1⟩ :
        ShaderUniforms).volumeDims.x - 1) ∧
     (0 ≤ ((0 : ℕ) : ℚ) ∧
      ((0 : ℕ) : ℚ) ≤ (⟨zeroMat, zeroMat, ⟨1, 1, 1⟩, 0, 1⟩ :
        ShaderUniforms).volumeDims.y - 1) ∧
     (0 ≤ ((0 : ℕ) : ℚ) ∧
      ((0 : ℕ) : ℚ) ≤ (⟨zeroMat, zeroMat, ⟨1, 1, 1⟩, 0, 1⟩ :
        ShaderUniforms).volumeDims.z - 1)) := by
  have hf : marchFetch
      (⟨zeroMat, zeroMat, ⟨1, 1, 1⟩, 0, 1⟩ : ShaderUniforms)
      (fun _ _ _ => 0) ⟨0, 0, 0⟩ ⟨0, 0, 0⟩ 0 0 = some (0, 0, 0) := by
    simp [marchFetch, marchStepCore, mappedPos, mulVec, insideUnit,
      insideTexBounds, zeroMat, show toTexel 0 = 0 from rfl]
  exact ⟨⟨by decide, by decide, by decide, hf⟩,
    fetch_within_texture _ _ _ _ _ _ _ (by decide) (by decide)
      (by decide) hf⟩

/-- C8: the camera matrix derivation is a pure function of the orbit
state (`theta`, `phi`, `radius`, `target`) and the aspect ratio: deriving
twice from equal inputs — the same unchanged state — yields identical
`(projection, view, invViewProj)` triples, with no hidden per-frame
state entering the computation. -/
theorem deriveMatrices_deterministic (lib : Mat4Lib) (piVal : ℚ)
    (c1 c2 : CameraParams) (a1 a2 : ℚ) (hc : c1 = c2) (ha : a1 = a2) :
    deriveMatrices lib piVal c1 a1 = deriveMatrices lib piVal c2 a2 := by
  rw [hc, ha]

/-- Witness for C8 at a concrete library instance, orbit state and
aspect ratio. -/
theorem deriveMatrices_deterministic_witness :
    (⟨1, 1, 2, ⟨0.5, 0.5, 0.5⟩⟩ : CameraParams) =
      ⟨1, 1, 2, ⟨0.5, 0.5, 0.5⟩⟩ ∧
    (4 : ℚ) / 3 = 4 / 3 ∧
    deriveMatrices constLib jsPi ⟨1, 1, 2, ⟨0.5, 0.5, 0.5⟩⟩ (4 / 3) =
      deriveMatrices constLib jsPi ⟨1, 1, 2, ⟨0.5, 0.5, 0.5⟩⟩ (4 / 3) :=
  ⟨rfl, rfl,
   deriveMatrices_deterministic constLib jsPi _ _ _ _ rfl rfl⟩

end NiiRender
